import Mathlib

/-!
Verification of the EcoSort waste-detection backend core:
the category taxonomy (`config.py`), the sorting decision engine
(`ai_core.py`), and the in-memory log store (`log_manager.py`),
shallowly embedded in Lean 4. Timestamps and session ids, produced by
`datetime.now()` in the source, are passed in as explicit parameters;
floats are modelled as exact rationals; Python dicts are modelled as
insertion-ordered association lists.
-/

namespace EcoSort

/-! ## Category taxonomy (`config.py`) -/

/-- Organic class names, `config.ORGANIC_CLASSES` (indices 0-31). -/
def ORGANIC_CLASSES : List String :=
  ["Apple", "Apple-core", "Apple-peel", "Bone", "Bone-fish", "Bread", "Bun",
   "Egg-hard", "Egg-scramble", "Egg-shell", "Egg-steam", "Egg-yolk", "Fish",
   "Meat", "Mussel", "Mussel-shell", "Noodle", "Orange", "Orange-peel",
   "Other-waste", "Pancake", "Pasta", "Pear", "Pear-core", "Pear-peel",
   "Potato", "Rice", "Shrimp", "Shrimp-shell", "Tofu", "Tomato", "Vegetable"]

/-- Inorganic class names, `config.INORGANIC_CLASSES` (indices 32-33). -/
def INORGANIC_CLASSES : List String := ["plastic_bag", "styrofoam"]

/-- Recyclable class names, `config.RECYCLABLE_CLASSES` (indices 34-38). -/
def RECYCLABLE_CLASSES : List String := ["Cardboard", "Glass", "Metal", "Paper", "Plastic"]

/-- Embeds `config.get_category`: category (organic/inorganic/recyclable) from class name,
with a final `"unknown"` fallback. -/
def get_category (class_name : String) : String :=
  if class_name ∈ ORGANIC_CLASSES then "organic"
  else if class_name ∈ INORGANIC_CLASSES then "inorganic"
  else if class_name ∈ RECYCLABLE_CLASSES then "recyclable"
  else "unknown"

/-- Embeds `config.COLORS`: category to BGR triple for OpenCV drawing. -/
def COLORS : List (String × (Nat × Nat × Nat)) :=
  [("organic", (0, 165, 255)), ("inorganic", (128, 128, 128)), ("recyclable", (0, 255, 0))]

/-- Embeds `config.WEB_COLORS`: category to hex string for the web API. -/
def WEB_COLORS : List (String × String) :=
  [("organic", "#FF6600"), ("inorganic", "#808080"), ("recyclable", "#00FF00")]

/-- Python `dict.get(key, default)` on an association list. -/
def dictGet {α : Type} (d : List (String × α)) (key : String) (default : α) : α :=
  match d.find? (fun p => p.1 == key) with
  | some p => p.2
  | none => default

/-! ## Detections and the sorting decision engine (`ai_core.py`) -/

/-- One detection record as consumed by `get_sorting_decision` and the log
store: class name, category string (capitalized, as produced by
`AICore.predict`), confidence (a Python float, modelled as ℚ), and the
bounding box fields. -/
structure Detection where
  class_name : String
  category : String
  confidence : ℚ
  bbox : List (String × Int)
deriving Repr, DecidableEq

/-- Result record of `AICore.get_sorting_decision`. -/
structure SortingDecision where
  decision : String
  signal : String
  organic_count : Nat
  inorganic_count : Nat
  recyclable_count : Nat
  total_count : Nat
deriving Repr, DecidableEq

/-- Embeds `AICore.get_sorting_decision`: counts detections per category and picks a
decision/signal pair by the source's if/elif chain. -/
def get_sorting_decision (detections : List Detection) : SortingDecision :=
  let organic_count := detections.countP (fun d => d.category == "Organic")
  let inorganic_count := detections.countP (fun d => d.category == "Inorganic")
  let recyclable_count := detections.countP (fun d => d.category == "Recyclable")
  let ds : String × String :=
    if detections.length = 0 then
      ("NO_DETECTION", "IDLE")
    else if (0 < organic_count ∧ 0 < inorganic_count) ∨
            (0 < organic_count ∧ 0 < recyclable_count) ∨
            (0 < inorganic_count ∧ 0 < recyclable_count) then
      ("SEPARATE_STREAMS", "MIXED")
    else if 0 < organic_count then
      ("ORGANIC_STREAM", "RED")
    else if 0 < inorganic_count then
      ("INORGANIC_STREAM", "GREEN")
    else
      ("RECYCLABLE_STREAM", "BLUE")
  { decision := ds.1
    signal := ds.2
    organic_count := organic_count
    inorganic_count := inorganic_count
    recyclable_count := recyclable_count
    total_count := detections.length }

/-- A sample Organic detection (class `Apple`, as normalized by `predict`). -/
def appleDet : Detection :=
  { class_name := "Apple", category := "Organic", confidence := 9/10, bbox := [] }

/-- A sample Inorganic detection (class `plastic_bag`). -/
def bagDet : Detection :=
  { class_name := "plastic_bag", category := "Inorganic", confidence := 8/10, bbox := [] }

/-- A sample Recyclable detection (class `Glass`). -/
def glassDet : Detection :=
  { class_name := "Glass", category := "Recyclable", confidence := 7/10, bbox := [] }

/-- A sample detection whose class is outside the taxonomy, so `predict`
assigns it the capitalized category `Unknown`. -/
def unknownDet : Detection :=
  { class_name := "class_99", category := "Unknown", confidence := 6/10, bbox := [] }

/-- C1: `get_sorting_decision` follows the stated precedence: empty batch is
NO_DETECTION/IDLE; two or more distinct non-zero categories is
SEPARATE_STREAMS/MIXED; exactly one non-zero category yields that category's
dedicated decision/signal pair; the reported per-category counts and
total_count are the actual counts. -/
theorem sorting_decision_precedence (dets : List Detection) :
    ((get_sorting_decision dets).organic_count
        = dets.countP (fun d => d.category == "Organic") ∧
     (get_sorting_decision dets).inorganic_count
        = dets.countP (fun d => d.category == "Inorganic") ∧
     (get_sorting_decision dets).recyclable_count
        = dets.countP (fun d => d.category == "Recyclable") ∧
     (get_sorting_decision dets).total_count = dets.length) ∧
    (dets = [] →
      (get_sorting_decision dets).decision = "NO_DETECTION" ∧
      (get_sorting_decision dets).signal = "IDLE") ∧
    ((0 < dets.countP (fun d => d.category == "Organic") ∧
        0 < dets.countP (fun d => d.category == "Inorganic")) ∨
     (0 < dets.countP (fun d => d.category == "Organic") ∧
        0 < dets.countP (fun d => d.category == "Recyclable")) ∨
     (0 < dets.countP (fun d => d.category == "Inorganic") ∧
        0 < dets.countP (fun d => d.category == "Recyclable")) →
      (get_sorting_decision dets).decision = "SEPARATE_STREAMS" ∧
      (get_sorting_decision dets).signal = "MIXED") ∧
    (0 < dets.countP (fun d => d.category == "Organic") ∧
        dets.countP (fun d => d.category == "Inorganic") = 0 ∧
        dets.countP (fun d => d.category == "Recyclable") = 0 →
      (get_sorting_decision dets).decision = "ORGANIC_STREAM" ∧
      (get_sorting_decision dets).signal = "RED") ∧
    (dets.countP (fun d => d.category == "Organic") = 0 ∧
        0 < dets.countP (fun d => d.category == "Inorganic") ∧
        dets.countP (fun d => d.category == "Recyclable") = 0 →
      (get_sorting_decision dets).decision = "INORGANIC_STREAM" ∧
      (get_sorting_decision dets).signal = "GREEN") ∧
    (dets.countP (fun d => d.category == "Organic") = 0 ∧
        dets.countP (fun d => d.category == "Inorganic") = 0 ∧
        0 < dets.countP (fun d => d.category == "Recyclable") →
      (get_sorting_decision dets).decision = "RECYCLABLE_STREAM" ∧
      (get_sorting_decision dets).signal = "BLUE") := by
  have hle1 := List.countP_le_length (p := fun d => d.category == "Organic") (l := dets)
  have hle2 := List.countP_le_length (p := fun d => d.category == "Inorganic") (l := dets)
  have hle3 := List.countP_le_length (p := fun d => d.category == "Recyclable") (l := dets)
  refine ⟨⟨rfl, rfl, rfl, rfl⟩, ?_, ?_, ?_, ?_, ?_⟩
  · rintro rfl; exact ⟨rfl, rfl⟩
  · intro h
    simp only [get_sorting_decision]
    have hne : ¬ dets.length = 0 := by omega
    rw [if_neg hne, if_pos h]
    exact ⟨rfl, rfl⟩
  · rintro ⟨h1, h2, h3⟩
    simp only [get_sorting_decision]
    have hne : ¬ dets.length = 0 := by omega
    rw [if_neg hne, if_neg (by omega), if_pos h1]
    exact ⟨rfl, rfl⟩
  · rintro ⟨h1, h2, h3⟩
    simp only [get_sorting_decision]
    have hne : ¬ dets.length = 0 := by omega
    rw [if_neg hne, if_neg (by omega), if_neg (by omega), if_pos h2]
    exact ⟨rfl, rfl⟩
  · rintro ⟨h1, h2, h3⟩
    simp only [get_sorting_decision]
    have hne : ¬ dets.length = 0 := by omega
    rw [if_neg hne, if_neg (by omega), if_neg (by omega), if_neg (by omega)]
    exact ⟨rfl, rfl⟩

/-- C1 witness: on a one-Apple batch the organic branch fires with the
actual counts. -/
theorem sorting_decision_precedence_witness :
    (get_sorting_decision [appleDet]).decision = "ORGANIC_STREAM" ∧
    (get_sorting_decision [appleDet]).signal = "RED" :=
  (sorting_decision_precedence [appleDet]).2.2.2.1 ⟨by decide, by decide, by decide⟩

/-- C5: on a non-empty batch in which every detection's category is `Unknown`
(all named-category counts are 0 but total_count > 0), `get_sorting_decision`
still returns a decision: the if/elif chain falls through to the last branch,
reporting RECYCLABLE_STREAM/BLUE with all named counts 0. -/
theorem sorting_decision_all_unknown (dets : List Detection)
    (hne : dets ≠ []) (hunk : ∀ d ∈ dets, d.category = "Unknown") :
    get_sorting_decision dets =
      { decision := "RECYCLABLE_STREAM", signal := "BLUE",
        organic_count := 0, inorganic_count := 0, recyclable_count := 0,
        total_count := dets.length } ∧ 0 < dets.length := by
  have hcount : ∀ c : String, c ≠ "Unknown" →
      dets.countP (fun d => d.category == c) = 0 := by
    intro c hc
    rw [List.countP_eq_zero]
    intro d hd
    have := hunk d hd
    simp [this]
    exact fun h => hc h.symm
  have h1 := hcount "Organic" (by decide)
  have h2 := hcount "Inorganic" (by decide)
  have h3 := hcount "Recyclable" (by decide)
  have hlen : dets.length ≠ 0 := by
    intro h
    exact hne (List.eq_nil_of_length_eq_zero h)
  constructor
  · simp only [get_sorting_decision, h1, h2, h3]
    rw [if_neg hlen, if_neg (by omega), if_neg (by omega), if_neg (by omega)]
  · omega

/-- C5 witness: a single unknown-category detection gets the recyclable
fallthrough. -/
theorem sorting_decision_all_unknown_witness :
    get_sorting_decision [unknownDet] =
      { decision := "RECYCLABLE_STREAM", signal := "BLUE",
        organic_count := 0, inorganic_count := 0, recyclable_count := 0,
        total_count := 1 } ∧ 0 < [unknownDet].length :=
  sorting_decision_all_unknown [unknownDet] (by decide) (by decide)

/-- C8: `get_sorting_decision` is invariant under permutation of the input
batch: it depends only on the per-category counts and the batch length. -/
theorem sorting_decision_perm_invariant (l₁ l₂ : List Detection)
    (h : l₁.Perm l₂) : get_sorting_decision l₁ = get_sorting_decision l₂ := by
  simp only [get_sorting_decision]
  rw [h.countP_eq, h.countP_eq, h.countP_eq, h.length_eq]

/-- C8 witness: swapping the two detections of a mixed batch leaves the
decision unchanged. -/
theorem sorting_decision_perm_invariant_witness :
    get_sorting_decision [appleDet, bagDet] = get_sorting_decision [bagDet, appleDet] :=
  sorting_decision_perm_invariant [appleDet, bagDet] [bagDet, appleDet]
    (List.Perm.swap bagDet appleDet [])

/-- C6: `get_category` is total: any class name outside all three class lists
maps to `"unknown"`, and the color lookups performed on the unknown category
(`WEB_COLORS.get(category, "#FFFFFF")` in `predict` and
`COLORS.get(category_lower, (255,255,255))` in `draw_detections`) return the
neutral defaults. -/
theorem get_category_total_unknown (class_name : String)
    (h1 : class_name ∉ ORGANIC_CLASSES) (h2 : class_name ∉ INORGANIC_CLASSES)
    (h3 : class_name ∉ RECYCLABLE_CLASSES) :
    get_category class_name = "unknown" ∧
    dictGet WEB_COLORS (get_category class_name) "#FFFFFF" = "#FFFFFF" ∧
    dictGet COLORS (get_category class_name) (255, 255, 255) = (255, 255, 255) := by
  have hcat : get_category class_name = "unknown" := by
    simp only [get_category]
    rw [if_neg h1, if_neg h2, if_neg h3]
  refine ⟨hcat, ?_, ?_⟩ <;> rw [hcat] <;> rfl

/-- C6 witness: the class name `class_99` (the synthetic label for an
unresolved class id) is outside the taxonomy and resolves to `"unknown"`
with the default colors. -/
theorem get_category_total_unknown_witness :
    get_category "class_99" = "unknown" ∧
    dictGet WEB_COLORS (get_category "class_99") "#FFFFFF" = "#FFFFFF" ∧
    dictGet COLORS (get_category "class_99") (255, 255, 255) = (255, 255, 255) :=
  get_category_total_unknown "class_99" (by decide) (by decide) (by decide)

/-! ## Log store (`log_manager.py`)

The source reads the wall clock with `datetime.now()` inside `add_log`
(once for the ISO timestamp and once for the human-formatted string,
modelled as one instant rendered twice) and at session creation / clear;
the embedding passes those readings in as explicit parameters. -/

/-- One `datetime.now()` reading: its ISO rendering (the sortable string
key used by `get_logs`) and its human-formatted rendering. -/
structure Timestamp where
  iso : String
  formatted : String
deriving Repr, DecidableEq, Inhabited

/-- One entry of `LogManager.logs`, as built by `add_log`. -/
structure LogEntry where
  id : Nat
  timestamp : String
  formatted_time : String
  class_name : String
  category : String
  confidence : ℚ
  bbox : List (String × Int)
  session_id : String
deriving Repr, DecidableEq

/-- Mutable state of a `LogManager`: the entry list and the session id. -/
structure LogManager where
  logs : List LogEntry
  session_id : String
deriving Repr, DecidableEq

/-- A fresh `LogManager` (`__init__`): empty logs, session id from the
creation-time clock reading. -/
def mkLogManager (session_id : String) : LogManager :=
  { logs := [], session_id := session_id }

/-- Embeds `LogManager.add_log`: builds the entry with id `len(logs) + 1`, the
current timestamp and the detection's fields, appends it, and returns it. -/
def add_log (s : LogManager) (detection : Detection) (now : Timestamp) :
    LogManager × LogEntry :=
  let log_entry : LogEntry :=
    { id := s.logs.length + 1
      timestamp := now.iso
      formatted_time := now.formatted
      class_name := detection.class_name
      category := detection.category
      confidence := detection.confidence
      bbox := detection.bbox
      session_id := s.session_id }
  ({ s with logs := s.logs ++ [log_entry] }, log_entry)

/-- Embeds `LogManager.add_batch_logs`: sequentially `add_log`s each detection,
each paired with its own clock reading, collecting the created entries. -/
def add_batch_logs (s : LogManager) :
    List (Detection × Timestamp) → LogManager × List LogEntry
  | [] => (s, [])
  | (d, t) :: rest =>
    let step := add_log s d t
    let next := add_batch_logs step.1 rest
    (next.1, step.2 :: next.2)

/-- Embeds `LogManager.clear_logs`: discards all entries and installs the session
id derived from the clear-time clock reading. -/
def clear_logs (_s : LogManager) (newSessionId : String) : LogManager :=
  { logs := [], session_id := newSessionId }

/-- One mutating call against the store: a single `add_log` or one
`add_batch_logs`. -/
inductive StoreOp where
  | addOne (d : Detection) (t : Timestamp)
  | addBatch (ds : List (Detection × Timestamp))
deriving Repr

/-- Applies one `StoreOp` to the store, discarding the returned entries. -/
def applyOp (s : LogManager) : StoreOp → LogManager
  | .addOne d t => (add_log s d t).1
  | .addBatch ds => (add_batch_logs s ds).1

/-- Applies a sequence of store operations in order. -/
def applyOps (s : LogManager) (ops : List StoreOp) : LogManager :=
  ops.foldl applyOp s

/-- Number of detections appended by one `StoreOp`. -/
def opSize : StoreOp → Nat
  | .addOne _ _ => 1
  | .addBatch ds => ds.length

/-- Total number of detections appended by a sequence of operations. -/
def opsSize (ops : List StoreOp) : Nat := (ops.map opSize).sum

/-- Stable insertion step of the descending timestamp sort: `x` moves past
exactly the entries with a strictly larger timestamp, so among equal
timestamps earlier entries stay first. -/
def insertDesc (x : LogEntry) : List LogEntry → List LogEntry
  | [] => [x]
  | y :: ys => if x.timestamp < y.timestamp then y :: insertDesc x ys else x :: y :: ys

/-- Model of Python's stable `list.sort(key=timestamp, reverse=True)` used
by `get_logs`: a stable sort by timestamp descending. -/
def sortDesc : List LogEntry → List LogEntry
  | [] => []
  | x :: xs => insertDesc x (sortDesc xs)

/-- Python truthiness of the optional `limit` argument: `if limit:` is
false for both `None` and `0`. -/
def pyTruthyNat : Option Nat → Bool
  | none => false
  | some n => !(n == 0)

/-- Python truthiness of an optional string argument: false for `None` and
for the empty string. -/
def pyTruthyStr : Option String → Bool
  | none => false
  | some t => !(t == "")

/-- Python truthiness of the optional `class_filter` list: false for `None`
and for an empty list. -/
def pyTruthyList : Option (List String) → Bool
  | none => false
  | some l => !(l.isEmpty)

/-- The successive `filtered = ...` reassignments of `get_logs` (source
lines 91-108): class, category and inclusive time filters, applied
conjunctively, each guarded by Python truthiness of its argument. The
source parses ISO timestamp strings back to datetimes for the time
filters; on the store's own `isoformat` timestamps that comparison is
modelled by the lexicographic order on the stored strings. -/
def filterLogs (logs : List LogEntry) (class_filter : Option (List String))
    (category_filter : Option String)
    (start_time : Option String) (end_time : Option String) : List LogEntry :=
  let f1 := if pyTruthyList class_filter then
      logs.filter (fun l => (class_filter.getD []).contains l.class_name)
    else logs
  let f2 := if pyTruthyStr category_filter then
      f1.filter (fun l => l.category == category_filter.getD "")
    else f1
  let f3 := if pyTruthyStr start_time then
      f2.filter (fun l => decide (start_time.getD "" ≤ l.timestamp))
    else f2
  if pyTruthyStr end_time then
    f3.filter (fun l => decide (l.timestamp ≤ end_time.getD ""))
  else f3

/-- Embeds `LogManager.get_logs`: filters, sorts by timestamp descending with
Python's stable sort, then applies `if limit:` truncation. -/
def get_logs (s : LogManager) (limit : Option Nat)
    (class_filter : Option (List String)) (category_filter : Option String)
    (start_time : Option String) (end_time : Option String) : List LogEntry :=
  let sorted := sortDesc (filterLogs s.logs class_filter category_filter start_time end_time)
  if pyTruthyNat limit then sorted.take (limit.getD 0) else sorted

/-- Python's `round` at one decimal place on an exact rational: rounds
`x * 10` to the nearest integer, ties to the even integer, and divides
back by 10. -/
def pyRound1 (x : ℚ) : ℚ :=
  let y := x * 10
  let f : ℤ := ⌊y⌋
  let n : ℤ :=
    if y - f < 1/2 then f
    else if 1/2 < y - f then f + 1
    else if 2 ∣ f then f else f + 1
  (n : ℚ) / 10

/-- Result record of `LogManager.get_statistics`. The source returns a dict
that omits the `session_id` key on the empty-store branch; that key is
modelled as an `Option`. -/
structure Statistics where
  total_detections : Nat
  inorganic_count : Nat
  organic_count : Nat
  class_counts : List (String × Nat)
  inorganic_percentage : ℚ
  organic_percentage : ℚ
  session_id : Option String
deriving Repr, DecidableEq

/-- Python `class_counts[cls] = class_counts.get(cls, 0) + 1` on an
insertion-ordered dict modelled as an association list: bump the existing
key in place, else append it with count 1. -/
def bumpCount : List (String × Nat) → String → List (String × Nat)
  | [], cls => [(cls, 1)]
  | p :: ps, cls => if p.1 == cls then (p.1, p.2 + 1) :: ps else p :: bumpCount ps cls

/-- Python `class_counts.get(cls, 0)` on the association list. -/
def lookupCount : List (String × Nat) → String → Nat
  | [], _ => 0
  | p :: ps, cls => if p.1 == cls then p.2 else lookupCount ps cls

/-- The `class_counts` loop of `get_statistics`. -/
def classCounts (logs : List LogEntry) : List (String × Nat) :=
  logs.foldl (fun m l => bumpCount m l.class_name) []

/-- Embeds `LogManager.get_statistics`: on an empty store returns all-zero counts
(and no `session_id` key); otherwise counts `Inorganic` and `Organic`
entries, tallies per-class counts, and computes the two percentages with
`round(count / total * 100, 1)`. -/
def get_statistics (s : LogManager) : Statistics :=
  if s.logs.isEmpty then
    { total_detections := 0
      inorganic_count := 0
      organic_count := 0
      class_counts := []
      inorganic_percentage := 0
      organic_percentage := 0
      session_id := none }
  else
    let inorganic_count := s.logs.countP (fun l => l.category == "Inorganic")
    let organic_count := s.logs.countP (fun l => l.category == "Organic")
    let total := s.logs.length
    { total_detections := total
      inorganic_count := inorganic_count
      organic_count := organic_count
      class_counts := classCounts s.logs
      inorganic_percentage :=
        if 0 < total then pyRound1 ((inorganic_count : ℚ) / total * 100) else 0
      organic_percentage :=
        if 0 < total then pyRound1 ((organic_count : ℚ) / total * 100) else 0
      session_id := some s.session_id }

/-! ## Properties of the stable descending sort -/

/-- Membership through one stable insertion step. -/
theorem mem_insertDesc {z x : LogEntry} {l : List LogEntry} :
    z ∈ insertDesc x l ↔ z = x ∨ z ∈ l := by
  induction l with
  | nil => simp [insertDesc]
  | cons y ys ih =>
    simp only [insertDesc]
    split
    · simp [ih]; tauto
    · simp

/-- The sort `sortDesc` permutes its input. -/
theorem sortDesc_perm (l : List LogEntry) : (sortDesc l).Perm l := by
  induction l with
  | nil => exact List.Perm.refl _
  | cons x xs ih =>
    have hins : ∀ (a : LogEntry) (m : List LogEntry), (insertDesc a m).Perm (a :: m) := by
      intro a m
      induction m with
      | nil => exact List.Perm.refl _
      | cons y ys ihm =>
        simp only [insertDesc]
        split
        · exact ((ihm.cons y).trans (List.Perm.swap a y ys))
        · exact List.Perm.refl _
    exact (hins x (sortDesc xs)).trans (ih.cons x)

/-- The insertion step preserves descending-timestamp pairwise order. -/
theorem pairwise_insertDesc {x : LogEntry} {l : List LogEntry}
    (h : l.Pairwise (fun a b => b.timestamp ≤ a.timestamp)) :
    (insertDesc x l).Pairwise (fun a b => b.timestamp ≤ a.timestamp) := by
  induction l with
  | nil => simp [insertDesc]
  | cons y ys ih =>
    rcases List.pairwise_cons.mp h with ⟨hy, hys⟩
    simp only [insertDesc]
    split
    · rename_i hlt
      refine List.pairwise_cons.mpr ⟨?_, ih hys⟩
      intro z hz
      rcases mem_insertDesc.mp hz with rfl | hz'
      · exact le_of_lt hlt
      · exact hy z hz'
    · rename_i hge
      refine List.pairwise_cons.mpr ⟨?_, h⟩
      intro z hz
      rcases List.mem_cons.mp hz with rfl | hz'
      · exact le_of_not_lt hge
      · exact le_trans (hy z hz') (le_of_not_lt hge)

/-- The output of `sortDesc` is sorted by timestamp descending. -/
theorem pairwise_sortDesc (l : List LogEntry) :
    (sortDesc l).Pairwise (fun a b => b.timestamp ≤ a.timestamp) := by
  induction l with
  | nil => simp [sortDesc]
  | cons x xs ih => exact pairwise_insertDesc ih

/-- Stability of the insertion step: inserting an entry whose id is below
every id in an already-ordered list keeps descending timestamps and keeps
ids ascending among equal timestamps. -/
theorem pairwise_stable_insertDesc {x : LogEntry} {l : List LogEntry}
    (hl : l.Pairwise (fun a b =>
      b.timestamp ≤ a.timestamp ∧ (a.timestamp = b.timestamp → a.id < b.id)))
    (hx : ∀ y ∈ l, x.id < y.id) :
    (insertDesc x l).Pairwise (fun a b =>
      b.timestamp ≤ a.timestamp ∧ (a.timestamp = b.timestamp → a.id < b.id)) := by
  induction l with
  | nil => simp [insertDesc]
  | cons y ys ih =>
    rcases List.pairwise_cons.mp hl with ⟨hy, hys⟩
    have hxy : x.id < y.id := hx y (List.mem_cons_self y ys)
    have hxys : ∀ z ∈ ys, x.id < z.id := fun z hz => hx z (List.mem_cons_of_mem y hz)
    simp only [insertDesc]
    split
    · rename_i hlt
      refine List.pairwise_cons.mpr ⟨?_, ih hys hxys⟩
      intro z hz
      rcases mem_insertDesc.mp hz with rfl | hz'
      · exact ⟨le_of_lt hlt, fun he => absurd he.symm (ne_of_lt hlt)⟩
      · exact hy z hz'
    · rename_i hge
      refine List.pairwise_cons.mpr ⟨?_, hl⟩
      intro z hz
      rcases List.mem_cons.mp hz with rfl | hz'
      · exact ⟨le_of_not_lt hge, fun _ => hxy⟩
      · exact ⟨le_trans (hy z hz').1 (le_of_not_lt hge), fun _ => hxys z hz'⟩

/-- Stability of `sortDesc`: on a list with strictly increasing ids it
orders equal timestamps by ascending id. -/
theorem pairwise_stable_sortDesc {l : List LogEntry}
    (h : l.Pairwise (fun a b => a.id < b.id)) :
    (sortDesc l).Pairwise (fun a b =>
      b.timestamp ≤ a.timestamp ∧ (a.timestamp = b.timestamp → a.id < b.id)) := by
  induction l with
  | nil => simp [sortDesc]
  | cons x xs ih =>
    rcases List.pairwise_cons.mp h with ⟨hx, hxs⟩
    refine pairwise_stable_insertDesc (ih hxs) ?_
    intro y hy
    exact hx y ((sortDesc_perm xs).mem_iff.mp hy)

/-- The conjunctive filtering stage of `get_logs` preserves any pairwise
relation on the log list. -/
theorem pairwise_if_filter {R : LogEntry → LogEntry → Prop} {l : List LogEntry}
    (c : Prop) [Decidable c] (p : LogEntry → Bool) (h : l.Pairwise R) :
    (if c then l.filter p else l).Pairwise R := by
  split
  · exact h.filter p
  · exact h

/-- The filtering stage preserves any pairwise relation on the log list. -/
theorem pairwise_filterLogs {R : LogEntry → LogEntry → Prop} {logs : List LogEntry}
    (cf : Option (List String)) (catf : Option String) (st et : Option String)
    (h : logs.Pairwise R) :
    (filterLogs logs cf catf st et).Pairwise R :=
  pairwise_if_filter _ _ (pairwise_if_filter _ _
    (pairwise_if_filter _ _ (pairwise_if_filter _ _ h)))

/-- A clock reading shared by the two entries of the tie-break
counterexample store. -/
def tsA : Timestamp := { iso := "2025-01-01T00:00:00", formatted := "2025-01-01 00:00:00" }

/-- A store holding two entries appended within the same clock reading:
ids 1 and 2, identical timestamps. Reachable by two `add_log` calls inside
one second-resolution instant. -/
def twoSameTs : LogManager :=
  (add_log (add_log (mkLogManager "20250101_000000") appleDet tsA).1 bagDet tsA).1

/-- The first entry of the counterexample store (id 1). -/
def entryA : LogEntry := (add_log (mkLogManager "20250101_000000") appleDet tsA).2

/-- The second entry of the counterexample store (id 2, same timestamp). -/
def entryB : LogEntry :=
  (add_log (add_log (mkLogManager "20250101_000000") appleDet tsA).1 bagDet tsA).2

/-- C2 counterexample: on a store with two equal-timestamp entries (ids 1
then 2), `get_logs` returns them as [id 1, id 2] — insertion order — so the
claimed tie-break "insertion id descending" fails. -/
theorem get_logs_tiebreak_counterexample :
    (get_logs twoSameTs none none none none none).map (fun l => l.id) = [1, 2] ∧
    ¬ (get_logs twoSameTs none none none none none).Pairwise
        (fun a b => a.timestamp = b.timestamp → b.id < a.id) := by
  have he : get_logs twoSameTs none none none none none
      = sortDesc [entryA, entryB] := rfl
  have hne : ¬ entryA.timestamp < entryB.timestamp := by
    rw [show entryA.timestamp = entryB.timestamp from rfl]
    exact lt_irrefl _
  have hsort : sortDesc [entryA, entryB] = [entryA, entryB] := by
    simp only [sortDesc, insertDesc, if_neg hne]
  constructor
  · rw [he, hsort]; rfl
  · rw [he, hsort]
    intro hp
    rcases List.pairwise_cons.mp hp with ⟨h1, _⟩
    have h2 := h1 entryB (List.mem_cons_self _ _) rfl
    exact absurd h2 (by decide)

/-- C2 amended: `get_logs` is sorted by timestamp descending, entries with
equal timestamps keep insertion order — insertion id ascending, because
Python's sort is stable — and a positive limit truncates only after
filtering and sorting. -/
theorem get_logs_sorted (s : LogManager) (limit : Option Nat)
    (cf : Option (List String)) (catf : Option String) (st et : Option String) :
    (get_logs s limit cf catf st et).Pairwise
      (fun a b => b.timestamp ≤ a.timestamp) ∧
    (s.logs.Pairwise (fun a b => a.id < b.id) →
      (get_logs s limit cf catf st et).Pairwise
        (fun a b => b.timestamp ≤ a.timestamp ∧
          (a.timestamp = b.timestamp → a.id < b.id))) ∧
    (∀ n : Nat, 0 < n →
      get_logs s (some n) cf catf st et = (get_logs s none cf catf st et).take n) := by
  refine ⟨?_, ?_, ?_⟩
  · simp only [get_logs]
    split
    · exact List.Pairwise.sublist (List.take_sublist _ _) (pairwise_sortDesc _)
    · exact pairwise_sortDesc _
  · intro h
    have hf := pairwise_stable_sortDesc (pairwise_filterLogs cf catf st et h)
    simp only [get_logs]
    split
    · exact List.Pairwise.sublist (List.take_sublist _ _) hf
    · exact hf
  · intro n hn
    have hne : (n == 0) = false := by
      simp [Nat.pos_iff_ne_zero.mp hn]
    simp [get_logs, pyTruthyNat, hne]

/-- C2 amended witness: on the concrete two-entry store (strictly
increasing ids), the sorted-with-ascending-tie-break property holds and
limit 1 takes the head of the full sorted result. -/
theorem get_logs_sorted_witness :
    (get_logs twoSameTs none none none none none).Pairwise
      (fun a b => b.timestamp ≤ a.timestamp ∧
        (a.timestamp = b.timestamp → a.id < b.id)) ∧
    get_logs twoSameTs (some 1) none none none none
      = (get_logs twoSameTs none none none none none).take 1 :=
  ⟨(get_logs_sorted twoSameTs none none none none none).2.1 (by decide),
   (get_logs_sorted twoSameTs none none none none none).2.2 1 (by decide)⟩

/-- C10: a `limit` of 0 is falsy in Python (`if limit:`), so `get_logs`
with `limit=0` returns all matching entries, exactly as with no limit. -/
theorem get_logs_limit_zero (s : LogManager) (cf : Option (List String))
    (catf : Option String) (st et : Option String) :
    get_logs s (some 0) cf catf st et = get_logs s none cf catf st et := by
  simp [get_logs, pyTruthyNat]

/-! ## Sequential ids (C7) -/

/-- Invariant: the ids in the log list are exactly 1, 2, ..., length, in
order. -/
def idsSequential (s : LogManager) : Prop :=
  s.logs.map (fun l => l.id) = List.range' 1 s.logs.length

/-- Appending with `add_log` preserves the sequential-id invariant and grows the store by
one entry. -/
theorem add_log_ids {s : LogManager} (d : Detection) (t : Timestamp)
    (h : idsSequential s) :
    idsSequential (add_log s d t).1 ∧
      (add_log s d t).1.logs.length = s.logs.length + 1 := by
  constructor
  · unfold idsSequential at h ⊢
    simp only [add_log, List.map_append, List.length_append, List.map_cons,
      List.map_nil, List.length_cons, List.length_nil]
    rw [h, show s.logs.length + (0 + 1) = s.logs.length + 1 by omega,
      List.range'_1_concat]
    simp [Nat.add_comm]
  · simp [add_log]

/-- Appending with `add_batch_logs` preserves the sequential-id invariant, growing the
store by the batch size. -/
theorem add_batch_logs_ids {s : LogManager} (ds : List (Detection × Timestamp))
    (h : idsSequential s) :
    idsSequential (add_batch_logs s ds).1 ∧
      (add_batch_logs s ds).1.logs.length = s.logs.length + ds.length := by
  induction ds generalizing s with
  | nil => simpa [add_batch_logs]
  | cons p rest ih =>
    obtain ⟨d, t⟩ := p
    simp only [add_batch_logs]
    obtain ⟨h1, h2⟩ := add_log_ids d t h
    obtain ⟨h3, h4⟩ := ih h1
    refine ⟨h3, ?_⟩
    rw [h4, h2, List.length_cons]
    omega

/-- Any store operation preserves the invariant and grows the store by its
size. -/
theorem applyOp_ids {s : LogManager} (op : StoreOp) (h : idsSequential s) :
    idsSequential (applyOp s op) ∧
      (applyOp s op).logs.length = s.logs.length + opSize op := by
  cases op with
  | addOne d t => exact add_log_ids d t h
  | addBatch ds => exact add_batch_logs_ids ds h

/-- Any sequence of store operations preserves the invariant, growing the
store by the total number of appended detections. -/
theorem applyOps_ids {s : LogManager} (ops : List StoreOp) (h : idsSequential s) :
    idsSequential (applyOps s ops) ∧
      (applyOps s ops).logs.length = s.logs.length + opsSize ops := by
  induction ops generalizing s with
  | nil => simpa [applyOps, opsSize]
  | cons op rest ih =>
    obtain ⟨h1, h2⟩ := applyOp_ids op h
    have hstep : applyOps s (op :: rest) = applyOps (applyOp s op) rest := rfl
    obtain ⟨h3, h4⟩ := ih h1
    refine ⟨by rw [hstep]; exact h3, ?_⟩
    rw [hstep, h4, h2]
    simp [opsSize]
    omega

/-- C7: within a session — starting from an empty store, as created fresh
or left by `clear_logs` — any sequence of `add_log` / `add_batch_logs`
calls appending N detections yields exactly N entries whose ids are
exactly 1, ..., N in insertion order (distinct, gap-free, strictly
increasing). -/
theorem log_ids_sequential (s : LogManager) (ops : List StoreOp)
    (h : s.logs = []) :
    (applyOps s ops).logs.length = opsSize ops ∧
    (applyOps s ops).logs.map (fun l => l.id) = List.range' 1 (opsSize ops) := by
  have h0 : idsSequential s := by
    unfold idsSequential
    rw [h]
    rfl
  obtain ⟨h1, h2⟩ := applyOps_ids ops h0
  constructor
  · rw [h2, h, List.length_nil, Nat.zero_add]
  · unfold idsSequential at h1
    rw [h1, h2, h, List.length_nil, Nat.zero_add]

/-- A concrete operation sequence: one single append followed by a batch of
two. -/
def opsDemo : List StoreOp :=
  [StoreOp.addOne appleDet tsA, StoreOp.addBatch [(bagDet, tsA), (glassDet, tsA)]]

/-- C7 witness: the three detections of `opsDemo` get ids [1, 2, 3]. -/
theorem log_ids_sequential_witness :
    (applyOps (mkLogManager "20250101_000000") opsDemo).logs.length = 3 ∧
    (applyOps (mkLogManager "20250101_000000") opsDemo).logs.map (fun l => l.id)
      = List.range' 1 3 :=
  log_ids_sequential (mkLogManager "20250101_000000") opsDemo rfl

/-! ## Statistics (C3, C4, C9) -/

/-- One bump of the class-count dict changes exactly the bumped key's
count. -/
theorem lookupCount_bumpCount (m : List (String × Nat)) (c cls : String) :
    lookupCount (bumpCount m c) cls
      = lookupCount m cls + (if c = cls then 1 else 0) := by
  induction m with
  | nil =>
    simp only [bumpCount, lookupCount]
    by_cases h : c = cls
    · simp [h]
    · simp [h, Ne.symm h]
  | cons p ps ih =>
    simp only [bumpCount]
    by_cases h1 : p.1 = c
    · rw [if_pos (by simpa using h1)]
      simp only [lookupCount]
      by_cases h2 : p.1 = cls
      · have hc : c = cls := by rw [← h1, h2]
        simp [h2, hc]
      · have hc : ¬ c = cls := fun hcc => h2 (by rw [h1, hcc])
        simp [h2, hc]
    · rw [if_neg (by simpa using h1)]
      simp only [lookupCount]
      by_cases h2 : p.1 = cls
      · have hc : ¬ c = cls := fun hcc => h1 (by rw [h2, hcc])
        simp [h2, hc]
      · simp [h2, ih]

/-- Folding the bump over a log list adds each class's occurrence count. -/
theorem lookupCount_foldl (logs : List LogEntry) (m : List (String × Nat))
    (cls : String) :
    lookupCount (logs.foldl (fun m l => bumpCount m l.class_name) m) cls
      = lookupCount m cls + logs.countP (fun l => l.class_name == cls) := by
  induction logs generalizing m with
  | nil => simp
  | cons l ls ih =>
    simp only [List.foldl_cons, List.countP_cons]
    rw [ih, lookupCount_bumpCount]
    by_cases h : l.class_name = cls <;> simp [h] <;> omega

/-- The class-count dict of `get_statistics` maps every class name to its
occurrence count in the logs. -/
theorem classCounts_spec (logs : List LogEntry) (cls : String) :
    lookupCount (classCounts logs) cls
      = logs.countP (fun l => l.class_name == cls) := by
  have h := lookupCount_foldl logs [] cls
  simpa [classCounts, lookupCount] using h

/-- A store holding exactly one Recyclable entry. -/
def recStore : LogManager := (add_log (mkLogManager "20250101_000000") glassDet tsA).1

/-- C3 counterexample: on a store holding exactly one `Recyclable` entry,
`get_statistics` reports total 1 but both of its per-category counts — the
only per-category counts it returns, `organic_count` and `inorganic_count` —
are 0, so no per-category count accounts for the Recyclable entry: the
statistics do not contain a count for every known category of the
3-category taxonomy. -/
theorem statistics_missing_recyclable_counterexample :
    (get_statistics recStore).total_detections = 1 ∧
    (get_statistics recStore).organic_count = 0 ∧
    (get_statistics recStore).inorganic_count = 0 ∧
    (get_statistics recStore).organic_count + (get_statistics recStore).inorganic_count
      ≠ (get_statistics recStore).total_detections := by
  refine ⟨rfl, rfl, rfl, by decide⟩

/-- C3 amended: `get_statistics` returns the total count, per-category
counts for `Organic` and `Inorganic` only (there is no `Recyclable` count),
and per-class counts covering every class seen. -/
theorem get_statistics_counts (s : LogManager) :
    (get_statistics s).total_detections = s.logs.length ∧
    (get_statistics s).organic_count
      = s.logs.countP (fun l => l.category == "Organic") ∧
    (get_statistics s).inorganic_count
      = s.logs.countP (fun l => l.category == "Inorganic") ∧
    ∀ cls : String, lookupCount (get_statistics s).class_counts cls
      = s.logs.countP (fun l => l.class_name == cls) := by
  by_cases h : s.logs.isEmpty
  · have hnil : s.logs = [] := by simpa using h
    simp [get_statistics, h, hnil, lookupCount]
  · have hne : s.logs.isEmpty = false := by simpa using h
    refine ⟨?_, ?_, ?_, fun cls => ?_⟩ <;> simp [get_statistics, hne]
    exact classCounts_spec s.logs cls

/-- C4 counterexample: after `clear_logs` installs a fresh session id, the
empty-store branch of `get_statistics` returns a dict without the
`session_id` key, so the statistics do not include the id assigned by
clear. -/
theorem clear_statistics_counterexample :
    (get_statistics (clear_logs recStore "20250102_000000")).session_id = none ∧
    (get_statistics (clear_logs recStore "20250102_000000")).session_id
      ≠ some "20250102_000000" :=
  ⟨rfl, by decide⟩

/-- C4 amended: after `clear_logs` the statistics report total 0, all
category counts 0, empty class counts and both percentages 0, but omit the
session id (the empty-store branch returns no `session_id` key). -/
theorem clear_statistics (s : LogManager) (sid : String) :
    get_statistics (clear_logs s sid)
      = { total_detections := 0, inorganic_count := 0, organic_count := 0,
          class_counts := [], inorganic_percentage := 0,
          organic_percentage := 0, session_id := none } := rfl

/-- A store holding 3 Organic entries and 1 Inorganic entry. -/
def fourStore : LogManager :=
  (add_batch_logs (mkLogManager "20250101_000000")
    [(appleDet, tsA), (appleDet, tsA), (appleDet, tsA), (bagDet, tsA)]).1

/-- On a non-empty store both percentages follow the
`round(count / total * 100, 1)` formula. -/
theorem percentages_formula (s : LogManager) (hs : s.logs ≠ []) :
    (get_statistics s).organic_percentage
      = pyRound1 ((s.logs.countP (fun l => l.category == "Organic") : ℚ)
          / s.logs.length * 100) ∧
    (get_statistics s).inorganic_percentage
      = pyRound1 ((s.logs.countP (fun l => l.category == "Inorganic") : ℚ)
          / s.logs.length * 100) := by
  have hne : s.logs.isEmpty = false := by simpa using hs
  have hpos : 0 < s.logs.length := List.length_pos.mpr hs
  constructor <;> simp [get_statistics, hne, hpos]

/-- C9: each category percentage is `round(count / total * 100, 1)` on a
non-empty store and 0 on an empty store; in particular 3 Organic entries
and 1 Inorganic entry give organic 75.0 and inorganic 25.0. -/
theorem statistics_percentages :
    (∀ s : LogManager, s.logs ≠ [] →
      (get_statistics s).organic_percentage
        = pyRound1 ((s.logs.countP (fun l => l.category == "Organic") : ℚ)
            / s.logs.length * 100) ∧
      (get_statistics s).inorganic_percentage
        = pyRound1 ((s.logs.countP (fun l => l.category == "Inorganic") : ℚ)
            / s.logs.length * 100)) ∧
    (∀ s : LogManager, s.logs = [] →
      (get_statistics s).organic_percentage = 0 ∧
      (get_statistics s).inorganic_percentage = 0) ∧
    ((get_statistics fourStore).organic_percentage = 75 ∧
     (get_statistics fourStore).inorganic_percentage = 25) := by
  refine ⟨fun s hs => percentages_formula s hs, ?_, ?_⟩
  · intro s hs
    have hne : s.logs.isEmpty = true := by simpa using hs
    simp [get_statistics, hne]
  · obtain ⟨ho, hi⟩ := percentages_formula fourStore (by decide)
    have hco : fourStore.logs.countP (fun l => l.category == "Organic") = 3 := by decide
    have hci : fourStore.logs.countP (fun l => l.category == "Inorganic") = 1 := by decide
    have hl : fourStore.logs.length = 4 := by decide
    constructor
    · rw [ho, hco, hl, show ((3:ℕ):ℚ) / ((4:ℕ):ℚ) * 100 = 75 from by norm_num]
      simp only [pyRound1]
      norm_num
    · rw [hi, hci, hl, show ((1:ℕ):ℚ) / ((4:ℕ):ℚ) * 100 = 25 from by norm_num]
      simp only [pyRound1]
      norm_num

/-- C9 witness: the percentage formula instantiated on the concrete
3-Organic / 1-Inorganic store. -/
theorem statistics_percentages_witness :
    (get_statistics fourStore).organic_percentage
      = pyRound1 ((fourStore.logs.countP (fun l => l.category == "Organic") : ℚ)
          / fourStore.logs.length * 100) ∧
    (get_statistics fourStore).inorganic_percentage
      = pyRound1 ((fourStore.logs.countP (fun l => l.category == "Inorganic") : ℚ)
          / fourStore.logs.length * 100) :=
  statistics_percentages.1 fourStore (by decide)

end EcoSort
